import Mathlib

/-!
Verification development for the IT Glue CSV import validator
(`IT Glue/Import-template-formatter.py`).

The Python program is shallowly embedded below.  Python strings are
modelled as Lean `String` (a wrapper around `List Char`); `str.replace`,
`str.strip`, `str.lower`, the `in` substring test and the comma join are
given executable Lean counterparts.  Python `dict` rows produced by
`csv.DictReader` are modelled as association lists from header name to
`Option String` (`none` models Python `None` for short rows).

The embedding is from the source, including its faults: the method
`_check_incomplete_rows` invoked by `validate` (line 95) is not defined
anywhere in the class, so every run of `validate` on a parsed file
raises `AttributeError`, which the handler at line 129 records as two
error strings; the checks invoked after line 95 are unreachable at run
time.  `validateRun` below reproduces exactly that behaviour, while the
individual check methods are embedded separately as the functions they
are.
-/

/-! ## Python string primitives -/

/-- Characters treated as whitespace by Python `str.strip` / falsiness of
`value.strip()`.  Only the ASCII whitespace characters are modelled; the
additional Unicode space code points recognised by Python do not occur in
any input considered here. -/
def isPySpace (c : Char) : Bool :=
  c = ' ' ∨ c = '\t' ∨ c = '\n' ∨ c = '\r' ∨ c = '\x0b' ∨ c = '\x0c'

/-- Python `str.strip()` on the underlying character list: drop whitespace
from both ends. -/
def pyStripL (l : List Char) : List Char :=
  (((l.dropWhile isPySpace).reverse.dropWhile isPySpace)).reverse

/-- Python `str.strip()`. -/
def pyStrip (s : String) : String := ⟨pyStripL s.data⟩

/-- Python `str.lower()`.  Python lowercases the full Unicode range; the
data handled by the program (header names, type keys, filenames) is
ASCII, which `Char.toLower` covers. -/
def pyLower (s : String) : String := ⟨s.data.map Char.toLower⟩

/-- Substring test on character lists: does `pat` occur as a contiguous
subsequence?  This is the Python substring test `pat in s`. -/
def containsSub (pat : List Char) : List Char → Bool
  | [] => pat.isEmpty
  | c :: cs => pat.isPrefixOf (c :: cs) || containsSub pat cs

/-- Python `pat in s` for strings. -/
def strContains (s pat : String) : Bool := containsSub pat.data s.data

/-- Python `s.startswith(p)`. -/
def strStartsWith (s p : String) : Bool := p.data.isPrefixOf s.data

/-- Auxiliary worker for Python `str.replace`: scan left to right; on a
match of `pat`, emit `new` and skip the matched characters (the skip
counter carries the still-to-drop remainder of a match, keeping the
recursion structural).  Non-overlapping, replaces every occurrence, as
Python does. -/
def pyReplaceAux (pat new : List Char) : Nat → List Char → List Char
  | _, [] => []
  | 0, c :: cs =>
    if pat.isPrefixOf (c :: cs) then new ++ pyReplaceAux pat new (pat.length - 1) cs
    else c :: pyReplaceAux pat new 0 cs
  | k + 1, _ :: cs => pyReplaceAux pat new k cs

/-- Python `str.replace(old, new)` on character lists (for non-empty `old`,
the only way the program calls it). -/
def pyReplaceL (pat new l : List Char) : List Char := pyReplaceAux pat new 0 l

/-- Python `s.replace(old, new)`. -/
def pyReplace (s old new : String) : String := ⟨pyReplaceL old.data new.data s.data⟩

/-- Python `sep.join(parts)`. -/
def pyJoin (sep : String) (parts : List String) : String := String.intercalate sep parts

/-! ## Record-type profile tables (class attributes, lines 15-45) -/

/-- `REQUIRED_FIELDS`: per record type, the required field names, in the
source order (dict insertion order) — the order matters for the filename-fallback
loop of `_detect_file_type`. -/
def REQUIRED_FIELDS : List (String × List String) :=
  [("configurations", ["organization", "configuration_type_name", "name"]),
   ("contacts", ["organization", "first_name", "last_name"]),
   ("locations", ["organization", "name"]),
   ("passwords", ["organization", "name", "username", "password"]),
   ("flexible_assets", ["organization", "flexible_asset_type_name", "name"]),
   ("organizations", ["name"]),
   ("ssl_certificates", ["organization", "name"]),
   ("certificates", ["organization", "name"])]

/-- Required-fields lookup (`REQUIRED_FIELDS[t]` / `t in REQUIRED_FIELDS`). -/
def requiredFieldsOf (t : String) : Option (List String) :=
  (REQUIRED_FIELDS.find? (fun kv => kv.1 = t)).map (·.2)

/-- `RECOMMENDED_FIELDS` (lines 27-29). -/
def RECOMMENDED_FIELDS : List (String × List String) :=
  [("passwords", ["password_category"])]

/-- `VALID_PASSWORD_CATEGORIES` (lines 32-45). -/
def VALID_PASSWORD_CATEGORIES : List String :=
  ["General", "Administrative", "Database", "Email", "Network", "Application",
   "Service Account", "Vendor", "VPN", "Web Application", "SSH Key", "API Key"]

/-- A parsed CSV row as produced by `csv.DictReader`: an association list
from header name to the cell value; `none` models Python `None`. -/
abbrev Row := List (String × Option String)

/-- Python `row.get(field)` (first matching key; `DictReader` keys are the
headers). -/
def rowGetOpt (row : Row) (field : String) : Option (Option String) :=
  (row.find? (fun kv => kv.1 = field)).map (·.2)

/-- Python `row.get(header, '')` followed by the `if value is None: value = ''`
normalisation of the serializer. -/
def rowGetD (row : Row) (field : String) : String :=
  match rowGetOpt row field with
  | some (some v) => v
  | some none => ""
  | none => ""

/-! ## `_detect_file_type` (lines 145-170) -/

/-- `_detect_file_type`: first-match-wins cascade over lowercased headers,
falling back to a substring search of the normalised filename against the
`REQUIRED_FIELDS` keys in table order.  Returns `none` when no rule
matches (`self.file_type` stays `None`). -/
def detectFileType (headers : List String) (filename : String) : Option String :=
  let hl := headers.map pyLower
  if hl.contains "configuration_type_name" then some "configurations"
  else if hl.contains "first_name" && hl.contains "last_name" then some "contacts"
  else if hl.contains "address_1" || hl.contains "city" then some "locations"
  else if hl.contains "password" && hl.contains "username" then some "passwords"
  else if hl.contains "flexible_asset_type_name" then some "flexible_assets"
  else if hl.contains "issued_by" || hl.contains "valid_until" then some "ssl_certificates"
  else if !hl.contains "organization" && hl.contains "name" then some "organizations"
  else
    let fn := pyReplace (pyReplace (pyLower filename) " " "_") "-" "_"
    (REQUIRED_FIELDS.find? (fun kv => strContains fn kv.1)).map (·.1)

/-! ## Individual checks

Each `_check_*` method appends message strings to `self.errors` /
`self.warnings` (and fix descriptors to `self.fixes`; the fix lists are
not needed by any theorem below and are omitted).  Each method is
embedded as a function returning the strings it appends, in order. -/

/-- `_check_bom` (lines 197-207): error block when a byte-order mark was
seen in the raw bytes or leads the first header. -/
def checkBom (headers : List String) (hasBom : Bool) : List String :=
  if hasBom || (match headers with
                | h :: _ => strStartsWith h "\uFEFF"
                | [] => false) then
    ["File has UTF-8 BOM (Byte Order Mark) - IT Glue imports WILL FAIL",
     "  → BOM is an invisible character that breaks IT Glue imports",
     "  → Use the \x27Create Fixed File\x27 option below to remove it",
     "  → Or manually: Save as \x27CSV UTF-8\x27 (NOT \x27CSV UTF-8 with BOM\x27)"]
  else []

/-- The required fields of `_check_required_fields` that are reported
missing: those whose lowercased name does not occur among the lowercased
headers (lines 262-266). -/
def missingFields (req headers : List String) : List String :=
  req.filter (fun f => !(headers.map pyLower).contains (pyLower f))

/-- The advisory block appended by `_check_required_fields` when no file
type could be determined (lines 288-293). -/
def unknownTypeWarnings (headers : List String) : List String :=
  ["Could not determine file type from headers or filename",
   "  → Known types: " ++ pyJoin ", " (REQUIRED_FIELDS.map (·.1)),
   "  → Current headers: " ++ (if headers ≠ [] then pyJoin ", " headers else "None"),
   "  → Ensure your CSV has the correct headers for the import type",
   "  → Or rename file to include type (e.g., \x27contacts.csv\x27, \x27passwords.csv\x27)"]

/-- `_check_required_fields` (lines 256-293): (errors, warnings).  With a
detected type, errors are emitted only when the case-insensitive
`missingFields` list is non-empty; with no type, the advisory warning
block is emitted instead. -/
def checkRequiredFields (fileType : Option String) (headers : List String) :
    List String × List String :=
  match fileType with
  | some t =>
    match requiredFieldsOf t with
    | some req =>
      let missing := missingFields req headers
      if missing ≠ [] then
        (["Missing required fields: " ++ pyJoin ", " missing,
          "  → Detected file type: \x27" ++ t ++ "\x27",
          "  → Current headers: " ++ pyJoin ", " headers]
         ++ (if t = "passwords" then
              ["  → For passwords, IT Glue REQUIRES: organization, name, username, password",
               "  → If you don\x27t have username/password, you cannot import without them"]
             else [])
         ++ ["  → Add these columns to your CSV file"]
         ++ (if missing.contains "organization" && headers.contains "Organization" then
              ["  → Note: Field names are case-sensitive. Use lowercase \x27organization\x27"]
             else []), [])
      else ([], [])
    | none => ([], [])
  | none => ([], unknownTypeWarnings headers)

/-- `_check_header_case` (lines 295-316): for each expected field (the
required fields, plus three common optional ones for passwords), every
header equal to it case-insensitively but not exactly yields an error
block. -/
def checkHeaderCase (fileType : Option String) (headers : List String) : List String :=
  match fileType with
  | none => []
  | some t =>
    match requiredFieldsOf t with
    | none => []
    | some req =>
      let expected := req ++ (if t = "passwords" then ["password_category", "url", "notes"] else [])
      expected.flatMap (fun e =>
        headers.flatMap (fun h =>
          if pyLower h = pyLower e ∧ h ≠ e then
            ["Header case mismatch: \x27" ++ h ++ "\x27 should be \x27" ++ e ++ "\x27",
             "  → IT Glue is case-sensitive with field names",
             "  → This WILL cause the import to fail"]
          else []))

/-- `_check_spaces_in_empty_cells` (lines 209-223): a cell whose value is
non-empty (truthy) but strips to empty is an error.  Rows are numbered
from 2 (`enumerate(rows, start=2)`); `None` values are skipped by the
`isinstance` guard. -/
def checkSpacesInEmptyCells (rows : List Row) : List String :=
  (List.enumFrom 2 rows).flatMap (fun ir =>
    ir.2.flatMap (fun kv =>
      match kv.2 with
      | some v =>
        if v ≠ "" ∧ pyStrip v = "" then
          ["Row " ++ toString ir.1 ++ ", Field \x27" ++ kv.1 ++
             "\x27: Contains only whitespace (spaces/tabs)",
           "  → IT Glue requires empty cells to be COMPLETELY EMPTY",
           "  → Delete the spaces/tabs from this cell"]
        else []
      | none => []))

/-- The header actually carrying a required/recommended field name:
the header-map dict comprehension of line 326 keeps the LAST header with a given
lowercase form, then the comprehension is looked up (lines 326-332). -/
def actualHeaderFor (headers : List String) (field : String) : Option String :=
  headers.reverse.find? (fun h => pyLower h = pyLower field)

/-- `_check_empty_required_fields` (lines 318-357), error strings only
(the per-field fix descriptors are omitted). -/
def checkEmptyRequiredFields (fileType : Option String) (rows : List Row)
    (headers : List String) : List String :=
  match fileType with
  | none => []
  | some t =>
    let req := (requiredFieldsOf t).getD []
    let actual := req.filterMap (actualHeaderFor headers)
    (List.enumFrom 2 rows).flatMap (fun ir =>
      actual.flatMap (fun field =>
        match rowGetOpt ir.2 field with
        | none => []
        | some v =>
          if (match v with
              | none => true
              | some s => pyStrip s = "") then
            ["Row " ++ toString ir.1 ++ ": Required field \x27" ++ field ++ "\x27 is empty",
             "  → Every row MUST have a value for \x27" ++ field ++ "\x27"]
            ++ (if t = "passwords" ∧ (pyLower field = "username" ∨ pyLower field = "password") then
                 ["  → You can use a placeholder like \x27N/A\x27 or \x27(See Notes)\x27"]
                else [])
          else []))

/-- `_check_recommended_fields` (lines 359-398), warning strings only:
per-field running counts, warnings for the first three empty occurrences,
then a two-line summary for fields empty more than three times. -/
def checkRecommendedFields (fileType : Option String) (rows : List Row)
    (headers : List String) : List String :=
  match fileType with
  | none => []
  | some t =>
    match (RECOMMENDED_FIELDS.find? (fun kv => kv.1 = t)).map (·.2) with
    | none => []
    | some rec0 =>
      let actual := rec0.filterMap (actualHeaderFor headers)
      let step := (List.enumFrom 2 rows).foldl (fun (acc : List (String × Nat) × List String) ir =>
        actual.foldl (fun acc field =>
          match rowGetOpt ir.2 field with
          | none => acc
          | some v =>
            if (match v with
                | none => true
                | some s => pyStrip s = "") then
              let n := ((acc.1.find? (fun p => p.1 = field)).map (·.2)).getD 0 + 1
              (acc.1.map (fun p => if p.1 = field then (p.1, n) else p),
               acc.2 ++ (if n ≤ 3 then
                 ["Row " ++ toString ir.1 ++ ": Recommended field \x27" ++ field ++ "\x27 is empty"]
                 ++ (if t = "passwords" then
                      ["  → Password category helps organize passwords in IT Glue"]
                     else [])
                 else []))
            else acc) acc)
        (actual.map (fun f => (f, 0)), [])
      step.2 ++ actual.flatMap (fun field =>
        let c := ((step.1.find? (fun p => p.1 = field)).map (·.2)).getD 0
        if c > 3 then
          ["Field \x27" ++ field ++ "\x27 is empty in " ++ toString c ++ " total rows",
           "  → Consider filling in these values before import"]
        else [])

/-- `_check_password_categories` (lines 502-522), warning strings. -/
def checkPasswordCategories (fileType : Option String) (rows : List Row)
    (headers : List String) : List String :=
  if fileType ≠ some "passwords" then []
  else
    match headers.find? (fun h => pyLower h = "password_category") with
    | none => []
    | some catField =>
      (List.enumFrom 2 rows).flatMap (fun ir =>
        let category := match rowGetOpt ir.2 catField with
          | some (some v) => pyStrip v
          | _ => ""
        if category ≠ "" ∧ ¬ VALID_PASSWORD_CATEGORIES.contains category then
          ["Row " ++ toString ir.1 ++ ": Unknown password_category: \x27" ++ category ++ "\x27",
           "  → Valid categories: " ++ pyJoin ", " VALID_PASSWORD_CATEGORIES,
           "  → IT Glue may reject this import if category doesn\x27t exist"]
        else [])

/-- `_check_row_count` (lines 552-561): (errors, warnings).  Zero data
rows is an error; more than 5000 rows yields the batch-splitting warning
block. -/
def checkRowCount (rows : List Row) : List String × List String :=
  if rows.length = 0 then
    (["CSV has headers but no data rows",
      "  → Add at least one data row to import"], [])
  else if rows.length > 5000 then
    ([], ["CSV has " ++ toString rows.length ++ " rows - this is a large import",
          "  → Consider splitting into smaller batches (500-1000 rows)",
          "  → Large imports may timeout or fail",
          "  → Test with 5-10 rows first to ensure format is correct"])
  else ([], [])

/-! ## `validate` at run time (lines 57-143) -/

/-- The two error strings recorded by the `except AttributeError` handler
(lines 129-131) when `validate` reaches line 95: the class defines no
method `_check_incomplete_rows`, so the attribute lookup raises. -/
def attributeErrorMessages : List String :=
  ["Data structure error: \x27ITGlueImportValidator\x27 object has no attribute \x27_check_incomplete_rows\x27",
   "This usually means a field value is None/NULL where text was expected. Check for empty cells in required fields."]

/-- `validate` (lines 57-143) on a successfully read and parsed file,
returning `(passed, errors, warnings)` with `passed = (errors == [])`
(line 143).  Execution order: the no-headers guard (line 77), type
detection (line 83), `_check_bom` (93), `_check_required_fields` (94),
then the call `self._check_incomplete_rows(rows, headers)` (95) raises
`AttributeError` — the method does not exist — so the remaining checks of
lines 96-117 never run and the handler at line 129 appends
`attributeErrorMessages` to the errors. -/
def validateRun (filename : String) (headers : List String) (_rows : List Row)
    (hasBom : Bool) : Bool × List String × List String :=
  if headers = [] then (false, ["CSV file has no headers"], [])
  else
    let ft := detectFileType headers filename
    let bomErrs := checkBom headers hasBom
    let (reqErrs, reqWarns) := checkRequiredFields ft headers
    let errors := bomErrs ++ reqErrs ++ attributeErrorMessages
    (errors.isEmpty, errors, reqWarns)

/-! ## `_apply_fixes` — the remediation engine (lines 803-1089) -/

/-- The zero-width / invisible characters stripped by remediation
(line 1049) and flagged by `_check_hidden_characters` (line 541). -/
def zeroWidthChars : List Char := ['\u200B', '\u200C', '\u200D', '\uFEFF']

/-- The per-cell normalisation loop of `_apply_fixes` (lines 1015-1068)
applied to one non-`None` cell value: a whitespace-only value becomes the
empty string and nothing further happens to it (the `continue`); any
other value is stripped, NUL bytes removed, doubled CR and doubled LF
each replaced by a single one (a single left-to-right `str.replace`
pass), zero-width characters removed, and — when the field name contains
`url` and the value contains a space and starts with a web scheme —
internal spaces become `%20`. -/
def cellTransform (field : String) (value : String) : String :=
  if value ≠ "" ∧ pyStrip value = "" then ""
  else
    let v1 := pyStrip value
    let v2 := if strContains v1 "\x00" then pyReplace v1 "\x00" "" else v1
    let v3 := if strContains v2 "\r\r" then pyReplace v2 "\r\r" "\r" else v2
    let v4 := if strContains v3 "\n\n" then pyReplace v3 "\n\n" "\n" else v3
    let v5 := zeroWidthChars.foldl
      (fun v c => if v.data.contains c then pyReplace v ⟨[c]⟩ "" else v) v4
    if strContains (pyLower field) "url" ∧ v5.data.contains ' ' then
      if strStartsWith v5 "http://" || strStartsWith v5 "https://" then
        pyReplace v5 " " "%20"
      else v5
    else v5

/-- The fill-empty-required/recommended-fields step of `_apply_fixes`
(lines 998-1013): for each resolved default (`fill_defaults`), a truthy
default value is written into the case-insensitively matching field of
the row when that field is `None` or strips to empty.  `none` models the
operator choosing to skip (`fill_defaults[field] = None`). -/
def fillStep (fillDefaults : List (String × Option String)) (row : Row) : Row :=
  fillDefaults.foldl (fun r fd =>
    match fd.2 with
    | none => r
    | some dv =>
      if dv = "" then r
      else
        match r.find? (fun kv => pyLower kv.1 = pyLower fd.1) with
        | none => r
        | some kv =>
          if (match kv.2 with
              | none => true
              | some s => pyStrip s = "") then
            r.map (fun kv2 => if kv2.1 = kv.1 then (kv2.1, some dv) else kv2)
          else r) row

/-- One row through the cell loop (lines 1015-1068): `None` values are
left untouched (`if value is not None`), all others go through
`cellTransform`. -/
def rowCellFix (row : Row) : Row :=
  row.map (fun kv => (kv.1, kv.2.map (cellTransform kv.1)))

/-- The full row-set transformation of `_apply_fixes` (lines 998-1068),
after header fixes and column additions: the fill step, then the per-cell
normalisation, row by row.  Rows are only mutated, never dropped or
added. -/
def remediateRows (fillDefaults : List (String × Option String)) (rows : List Row) : List Row :=
  rows.map (fun row => rowCellFix (fillStep fillDefaults row))

/-- The output path of `_apply_fixes` (line 806):
`csv_path.replace` of `.csv` with `_fixed.csv` — Python `str.replace`
replaces every occurrence of `.csv` anywhere in the path, case
sensitively. -/
def outputPath (csvPath : String) : String := pyReplace csvPath ".csv" "_fixed.csv"

/-- `pathlib.PurePath.suffix` as used by `get_csv_files` (line 1148 /
1173): the extension of the final path component — from its last dot,
provided that dot is neither the first nor the last character of the
name. -/
def pathSuffix (p : String) : String :=
  let name := (p.data.splitOn '/').getLastD []
  match (name.reverse.findIdx? (fun c => c = '.')) with
  | none => ""
  | some rIdx =>
    let i := name.length - 1 - rIdx
    if 0 < i ∧ i < name.length - 1 then ⟨name.drop i⟩ else ""

/-- The CSV-file acceptance test of `get_csv_files` (lines 1148, 1173):
the path suffix, lowercased, must equal `.csv`. -/
def acceptsCsvPath (p : String) : Bool := pyLower (pathSuffix p) = ".csv"

/-! ## Serialization of the fixed file (lines 1071-1089) -/

/-- The quoting condition of line 1084: the value is truthy and contains
a comma, double quote, LF or CR. -/
def needsQuote (v : String) : Bool :=
  v ≠ "" && (v.data.contains ',' || v.data.contains '"' ||
             v.data.contains '\n' || v.data.contains '\r')

/-- One data cell as written (lines 1083-1086): wrapped in double quotes
with inner quotes doubled when `needsQuote`, otherwise verbatim. -/
def serializeCell (v : String) : String :=
  if needsQuote v then "\"" ++ pyReplace v "\"" "\"\"" ++ "\"" else v

/-- One data row as written (lines 1077-1089): cells in header order,
joined by commas, newline-terminated. -/
def serializeRow (headers : List String) (row : Row) : String :=
  pyJoin "," (headers.map (fun h => serializeCell (rowGetD row h))) ++ "\n"

/-- The whole output file (lines 1071-1089): the header line is
the comma join of the headers plus a newline — written with no quoting or escaping of any
header name — followed by the serialized data rows. -/
def serializeOutput (headers : List String) (rows : List Row) : String :=
  rows.foldl (fun acc row => acc ++ serializeRow headers row)
    (pyJoin "," headers ++ "\n")

/-! ## Auxiliary definitions used by the lemmas below -/

/-- The space to percent-20 cell encoder of line 1060, as a per-character map. -/
def spaceEnc (c : Char) : List Char := if c = ' ' then ['%', '2', '0'] else [c]

/-- The URL branch of the cell loop (lines 1057-1065). -/
def urlStep (field : String) (v : String) : String :=
  if strContains (pyLower field) "url" ∧ v.data.contains ' ' then
    if strStartsWith v "http://" || strStartsWith v "https://" then
      pyReplace v " " "%20"
    else v
  else v

/-- A cell value containing none of the characters the normalisation loop
removes: no doubled CR, no doubled LF, no NUL, no zero-width characters. -/
def cleanStr (v : String) : Prop :=
  strContains v "\r\r" = false ∧ strContains v "\n\n" = false ∧
  strContains v "\x00" = false ∧ ∀ c ∈ zeroWidthChars, v.data.contains c = false

/-! ## Supporting lemmas -/

theorem containsSub_iff_isInfix (pat l : List Char) :
    containsSub pat l = true ↔ pat <:+: l := by
  induction l with
  | nil => simp [containsSub, List.infix_nil, List.isEmpty_iff]
  | cons c cs ih =>
    simp [containsSub, List.infix_cons_iff, List.isPrefixOf_iff_prefix, ih]

theorem containsSub_false_of_isInfix {pat m l : List Char}
    (hml : m <:+: l) (h : containsSub pat l = false) : containsSub pat m = false := by
  by_contra hne
  have : containsSub pat m = true := by
    cases hcm : containsSub pat m
    · exact absurd hcm hne
    · rfl
  have : pat <:+: l := ((containsSub_iff_isInfix pat m).mp this).trans hml
  rw [(containsSub_iff_isInfix pat l).mpr this] at h
  exact Bool.true_eq_false.mp h

theorem containsSub_singleton (c : Char) (l : List Char) :
    containsSub [c] l = true ↔ c ∈ l := by
  induction l with
  | nil => simp [containsSub]
  | cons d ds ih => simp [containsSub, List.isPrefixOf, ih]

theorem head?_dropWhile_not {p : Char → Bool} {l : List Char} {c : Char}
    (h : (l.dropWhile p).head? = some c) : p c = false := by
  induction l with
  | nil => simp [List.dropWhile] at h
  | cons d ds ih =>
    rw [List.dropWhile_cons] at h
    by_cases hd : p d
    · rw [if_pos hd] at h; exact ih h
    · rw [if_neg hd] at h
      simp at h
      subst h
      exact Bool.not_eq_true _ ▸ (by simpa using hd)

theorem dropWhile_eq_self_of_head? {p : Char → Bool} {l : List Char}
    (h : ∀ c, l.head? = some c → p c = false) : l.dropWhile p = l := by
  cases l with
  | nil => rfl
  | cons d ds =>
    rw [List.dropWhile_cons, if_neg]
    simp [h d rfl]

theorem pyStripL_isInfix (l : List Char) : pyStripL l <:+: l := by
  unfold pyStripL
  set a := l.dropWhile isPySpace with ha
  set b := a.reverse.dropWhile isPySpace with hb
  have hba : b <:+ a.reverse := List.dropWhile_suffix _
  obtain ⟨pre, hpre⟩ := hba
  have h1 : b.reverse <+: a := by
    have : a = b.reverse ++ pre.reverse := by
      have := congrArg List.reverse hpre
      simpa [List.reverse_append] using this.symm
    exact this ▸ List.prefix_append _ _
  exact h1.isInfix.trans (List.dropWhile_suffix _).isInfix

theorem pyStripL_getLast? {l : List Char} {c : Char}
    (h : (pyStripL l).getLast? = some c) : isPySpace c = false := by
  unfold pyStripL at h
  rw [List.getLast?_reverse] at h
  exact head?_dropWhile_not h

theorem pyStripL_head? {l : List Char} {c : Char}
    (h : (pyStripL l).head? = some c) : isPySpace c = false := by
  unfold pyStripL at h
  rw [List.head?_reverse] at h
  set a := l.dropWhile isPySpace with ha
  set b := a.reverse.dropWhile isPySpace with hb
  obtain ⟨pre, hpre⟩ := (List.dropWhile_suffix (l := a.reverse) isPySpace : b <:+ a.reverse)
  have hb' : b.getLast? = some c := h
  have hbne : b ≠ [] := by
    intro hnil
    rw [hnil] at hb'
    simp at hb'
  have : a.reverse.getLast? = some c := by
    rw [← hpre, List.getLast?_append]
    rw [List.getLast?_eq_getLast _ hbne] at hb' ⊢
    simp [hb']
  rw [List.getLast?_reverse] at this
  exact head?_dropWhile_not this

theorem pyStripL_eq_self {l : List Char}
    (hh : ∀ c, l.head? = some c → isPySpace c = false)
    (hl : ∀ c, l.getLast? = some c → isPySpace c = false) : pyStripL l = l := by
  unfold pyStripL
  rw [dropWhile_eq_self_of_head? hh]
  rw [dropWhile_eq_self_of_head? (by
    intro c hc
    rw [List.head?_reverse] at hc
    exact hl c hc)]
  exact List.reverse_reverse l

theorem pyStripL_idem (l : List Char) : pyStripL (pyStripL l) = pyStripL l :=
  pyStripL_eq_self (fun _ h => pyStripL_head? h) (fun _ h => pyStripL_getLast? h)

/-- Characterization of single-character `str.replace`. -/
theorem pyReplaceAux_single (o : Char) (new l : List Char) :
    pyReplaceAux [o] new 0 l = l.flatMap (fun c => if c = o then new else [c]) := by
  induction l with
  | nil => rfl
  | cons c cs ih =>
    rw [pyReplaceAux]
    by_cases hco : c = o
    · subst hco
      rw [if_pos (by simp [List.isPrefixOf])]
      simp [ih]
    · rw [if_neg (by simp [List.isPrefixOf, hco]; intro h; exact absurd h.symm hco)]
      simp [ih, hco]


theorem spaceEnc_ne_nil (c : Char) : spaceEnc c ≠ [] := by
  unfold spaceEnc; split <;> simp

theorem pyReplace_space (s : String) :
    (pyReplace s " " "%20").data = s.data.flatMap spaceEnc := by
  show pyReplaceAux [' '] ['%', '2', '0'] 0 s.data = _
  rw [pyReplaceAux_single]
  rfl

theorem mem_flatMap_spaceEnc {d : Char} {l : List Char}
    (h : d ∈ l.flatMap spaceEnc) : d ∈ l ∨ d ∈ (['%', '2', '0'] : List Char) := by
  rw [List.mem_flatMap] at h
  obtain ⟨a, hal, hda⟩ := h
  unfold spaceEnc at hda
  by_cases ha : a = ' '
  · rw [if_pos ha] at hda; exact Or.inr hda
  · rw [if_neg ha] at hda
    simp at hda
    exact Or.inl (hda ▸ hal)

theorem space_not_mem_flatMap_spaceEnc (l : List Char) : ' ' ∉ l.flatMap spaceEnc := by
  intro h
  rw [List.mem_flatMap] at h
  obtain ⟨a, _, hda⟩ := h
  unfold spaceEnc at hda
  by_cases ha : a = ' '
  · rw [if_pos ha] at hda; simp at hda
  · rw [if_neg ha] at hda; simp at hda; exact ha hda.symm

theorem flatMap_spaceEnc_ne_nil {l : List Char} (h : l ≠ []) : l.flatMap spaceEnc ≠ [] := by
  cases l with
  | nil => exact absurd rfl h
  | cons c cs =>
    simp only [List.flatMap_cons]
    intro hcontra
    exact spaceEnc_ne_nil c (List.append_eq_nil.mp hcontra).1

theorem head?_flatMap_spaceEnc (c : Char) (cs : List Char) :
    ((c :: cs).flatMap spaceEnc).head? = some (if c = ' ' then '%' else c) := by
  simp only [List.flatMap_cons, List.head?_append]
  unfold spaceEnc
  split <;> simp

theorem getLast?_flatMap_spaceEnc {l : List Char} {c : Char}
    (h : l.getLast? = some c) :
    (l.flatMap spaceEnc).getLast? = some (if c = ' ' then '0' else c) := by
  induction l with
  | nil => simp at h
  | cons d ds ih =>
    cases ds with
    | nil =>
      simp at h
      subst h
      simp only [List.flatMap_cons, List.flatMap_nil, List.append_nil]
      unfold spaceEnc
      split <;> simp
    | cons e es =>
      rw [List.getLast?_cons_cons] at h
      have := ih h
      simp only [List.flatMap_cons] at this ⊢
      simp only [List.getLast?_append] at this ⊢
      rw [this]
      rfl

set_option maxHeartbeats 1000000 in
theorem containsSub_pair_append (x : Char) (a b : List Char) :
    containsSub [x, x] (a ++ b) = true ↔
      containsSub [x, x] a = true ∨ containsSub [x, x] b = true ∨
        (a.getLast? = some x ∧ b.head? = some x) := by
  induction a with
  | nil => simp [containsSub]
  | cons y ys ih =>
    cases ys with
    | nil =>
      cases b with
      | nil => simp [containsSub, List.isPrefixOf]
      | cons z zs =>
        simp [containsSub, List.isPrefixOf]
        tauto
    | cons z zs =>
      rw [List.getLast?_cons_cons]
      have hgoal : containsSub [x, x] ((y :: z :: zs) ++ b) = true ↔
          (x = y ∧ x = z) ∨ containsSub [x, x] ((z :: zs) ++ b) = true := by
        simp [containsSub, List.isPrefixOf]
      have hrhs : containsSub [x, x] (y :: z :: zs) = true ↔
          (x = y ∧ x = z) ∨ containsSub [x, x] (z :: zs) = true := by
        simp [containsSub, List.isPrefixOf]
      rw [hgoal, hrhs, ih]
      tauto

theorem containsSub_pair_flatMap {x : Char} (h1 : x ≠ '%')
    (h2 : x ≠ '2') (h3 : x ≠ '0') {l : List Char}
    (hl : containsSub [x, x] l = false) :
    containsSub [x, x] (l.flatMap spaceEnc) = false := by
  induction l with
  | nil => rfl
  | cons c cs ih =>
    have hl' : containsSub [x, x] cs = false := by
      rw [containsSub] at hl
      exact (Bool.or_eq_false_iff.mp hl).2
    have ihcs := ih hl'
    rw [List.flatMap_cons]
    rw [Bool.eq_false_iff]
    intro htrue
    rcases (containsSub_pair_append x (spaceEnc c) (cs.flatMap spaceEnc)).mp htrue with
      hA | hB | ⟨hlast, hhead⟩
    · unfold spaceEnc at hA
      by_cases hcsp : c = ' '
      · rw [if_pos hcsp] at hA
        simp [containsSub, List.isPrefixOf, h1, h2, h3] at hA
      · rw [if_neg hcsp] at hA
        simp [containsSub, List.isPrefixOf] at hA
    · rw [ihcs] at hB
      exact Bool.false_ne_true hB
    · have hcx : c = x := by
        unfold spaceEnc at hlast
        by_cases hcsp : c = ' '
        · rw [if_pos hcsp] at hlast
          simp at hlast
          exact absurd hlast.symm h3
        · rw [if_neg hcsp] at hlast
          simpa using hlast
      cases cs with
      | nil =>
        rw [List.flatMap_nil] at hhead
        simp at hhead
      | cons d ds =>
        rw [head?_flatMap_spaceEnc] at hhead
        have hdx : d = x := by
          by_cases hdsp : d = ' '
          · rw [if_pos hdsp] at hhead
            simp at hhead
            exact absurd hhead.symm h1
          · rw [if_neg hdsp] at hhead
            simpa using hhead
        rw [containsSub] at hl
        have hpre : [x, x].isPrefixOf (c :: d :: ds) = true := by
          simp [List.isPrefixOf, hcx, hdx]
        rw [hpre] at hl
        simp at hl

theorem pyReplaceAux_skip_append (pat new l₁ l₂ : List Char) :
    pyReplaceAux pat new l₁.length (l₁ ++ l₂) = pyReplaceAux pat new 0 l₂ := by
  induction l₁ with
  | nil => rfl
  | cons c cs ih => simpa [pyReplaceAux] using ih

theorem containsSub_of_isPrefix {pat l : List Char} (h : pat <+: l) :
    containsSub pat l = true :=
  (containsSub_iff_isInfix pat l).mpr h.isInfix

theorem pyReplace_append_pattern (o : Char) (os new l : List Char)
    (h : containsSub (o :: os) (l ++ (o :: os).dropLast) = false) :
    pyReplaceAux (o :: os) new 0 (l ++ (o :: os)) = l ++ new := by
  induction l with
  | nil =>
    rw [List.nil_append, pyReplaceAux, if_pos (List.isPrefixOf_iff_prefix.mpr (List.prefix_refl _))]
    have hskip : pyReplaceAux (o :: os) new os.length os = [] := by
      simpa using pyReplaceAux_skip_append (o :: os) new os []
    have hlen : (o :: os).length - 1 = os.length := by simp
    rw [hlen, hskip]
    simp
  | cons c cs ih =>
    have hpre : ¬ (o :: os).isPrefixOf (c :: (cs ++ (o :: os))) = true := by
      intro hp
      have hp' : (o :: os) <+: (c :: cs) ++ (o :: os) := by
        rw [List.cons_append] at *
        exact List.isPrefixOf_iff_prefix.mp hp
      have hmid : (c :: cs) ++ (o :: os).dropLast <+: (c :: cs) ++ (o :: os) :=
        (List.prefix_append_right_inj _).mpr (List.dropLast_prefix _)
      have hshort : (o :: os) <+: (c :: cs) ++ (o :: os).dropLast := by
        apply List.prefix_of_prefix_length_le hp' hmid
        simp [List.length_dropLast]
      rw [containsSub_of_isPrefix hshort] at h
      exact Bool.false_ne_true h.symm
    rw [List.cons_append, pyReplaceAux, if_neg hpre]
    have htail : containsSub (o :: os) (cs ++ (o :: os).dropLast) = false := by
      rw [List.cons_append, containsSub] at h
      exact (Bool.or_eq_false_iff.mp h).2
    rw [ih htail, List.cons_append]



theorem contains_eq_false_iff (l : List Char) (c : Char) :
    l.contains c = false ↔ c ∉ l := by
  rw [← Bool.not_eq_true, List.contains, List.elem_iff]

theorem cleanStr_of_isInfix {v w : String} (hw : w.data <:+: v.data)
    (h : cleanStr v) : cleanStr w := by
  obtain ⟨h1, h2, h3, h4⟩ := h
  refine ⟨containsSub_false_of_isInfix hw h1, containsSub_false_of_isInfix hw h2,
    containsSub_false_of_isInfix hw h3, ?_⟩
  intro c hc
  rw [contains_eq_false_iff]
  intro hmem
  have h4c := h4 c hc
  rw [contains_eq_false_iff] at h4c
  exact h4c (hw.subset hmem)

theorem cellTransform_clean (field : String) {v : String} (h : cleanStr v) :
    cellTransform field v =
      if v ≠ "" ∧ pyStrip v = "" then "" else urlStep field (pyStrip v) := by
  have hinf : (pyStrip v).data <:+: v.data := pyStripL_isInfix v.data
  obtain ⟨h1, h2, h3, h4⟩ := cleanStr_of_isInfix hinf h
  have hz1 := h4 '\u200B' (by simp [zeroWidthChars])
  have hz2 := h4 '\u200C' (by simp [zeroWidthChars])
  have hz3 := h4 '\u200D' (by simp [zeroWidthChars])
  have hz4 := h4 '\uFEFF' (by simp [zeroWidthChars])
  unfold cellTransform urlStep
  simp only [zeroWidthChars, List.foldl_cons, List.foldl_nil, h1, h2, h3,
    hz1, hz2, hz3, hz4, Bool.false_eq_true, if_false]

theorem str_eq_empty_iff (s : String) : s = "" ↔ s.data = [] := by
  constructor
  · intro h; rw [h]
  · intro h
    cases s with
    | mk d => cases h; rfl

theorem pyStrip_empty : pyStrip "" = "" := rfl

theorem pyStrip_idem (s : String) : pyStrip (pyStrip s) = pyStrip s :=
  congrArg String.mk (pyStripL_idem s.data)

theorem pyStrip_eq_self_of_ends {s : String}
    (hh : ∀ c, s.data.head? = some c → isPySpace c = false)
    (hl : ∀ c, s.data.getLast? = some c → isPySpace c = false) : pyStrip s = s := by
  have hds : pyStripL s.data = s.data := pyStripL_eq_self hh hl
  cases s with
  | mk d => exact congrArg String.mk hds

theorem str_ne_empty_data {s : String} (h : s ≠ "") : s.data ≠ [] :=
  fun hd => h ((str_eq_empty_iff s).mpr hd)

theorem cellTransform_empty (field : String) : cellTransform field "" = "" := by
  unfold cellTransform
  rw [if_neg (by simp)]
  norm_num [pyStrip_empty, strContains, containsSub, zeroWidthChars,
    List.foldl_cons, List.foldl_nil]

theorem urlStep_ne_empty {field v : String} (h : v ≠ "") : urlStep field v ≠ "" := by
  unfold urlStep
  split
  · split
    · intro hcontra
      have hdata : (pyReplace v " " "%20").data = [] := by rw [hcontra]
      rw [pyReplace_space] at hdata
      exact flatMap_spaceEnc_ne_nil (str_ne_empty_data h) hdata
    · exact h
  · exact h

theorem urlStep_strip_fixed {field v : String}
    (hh : ∀ c, v.data.head? = some c → isPySpace c = false)
    (hl : ∀ c, v.data.getLast? = some c → isPySpace c = false) :
    pyStrip (urlStep field v) = urlStep field v := by
  unfold urlStep
  split
  case isTrue hcond =>
    split
    case isTrue =>
      apply pyStrip_eq_self_of_ends
      · intro d hd
        rw [pyReplace_space] at hd
        cases hv : v.data with
        | nil => rw [hv] at hd; cases hd
        | cons c cs =>
          rw [hv, head?_flatMap_spaceEnc] at hd
          have hc : isPySpace c = false := hh c (by rw [hv]; rfl)
          have hcsp : c ≠ ' ' := by
            intro he; rw [he] at hc; simp [isPySpace] at hc
          rw [if_neg hcsp] at hd
          cases hd
          exact hc
      · intro d hd
        rw [pyReplace_space] at hd
        cases hv : v.data with
        | nil => rw [hv] at hd; cases hd
        | cons c cs =>
          have hne : v.data ≠ [] := by rw [hv]; simp
          have hglv : v.data.getLast? = some (v.data.getLast hne) :=
            List.getLast?_eq_getLast _ _
          have hgns : isPySpace (v.data.getLast hne) = false := hl _ hglv
          have hgsp : v.data.getLast hne ≠ ' ' := by
            intro he; rw [he] at hgns; simp [isPySpace] at hgns
          rw [getLast?_flatMap_spaceEnc hglv, if_neg hgsp] at hd
          cases hd
          exact hgns
    case isFalse => exact pyStrip_eq_self_of_ends hh hl
  case isFalse => exact pyStrip_eq_self_of_ends hh hl

theorem urlStep_clean {field v : String} (h : cleanStr v) : cleanStr (urlStep field v) := by
  obtain ⟨h1, h2, h3, h4⟩ := h
  unfold urlStep
  split
  · split
    case isTrue =>
      refine ⟨?_, ?_, ?_, ?_⟩
      · show containsSub ['\r', '\r'] (pyReplace v " " "%20").data = false
        rw [pyReplace_space]
        exact containsSub_pair_flatMap (by decide) (by decide) (by decide) h1
      · show containsSub ['\n', '\n'] (pyReplace v " " "%20").data = false
        rw [pyReplace_space]
        exact containsSub_pair_flatMap (by decide) (by decide) (by decide) h2
      · show containsSub ['\x00'] (pyReplace v " " "%20").data = false
        rw [Bool.eq_false_iff]
        intro htrue
        have hmem := (containsSub_singleton _ _).mp htrue
        rw [pyReplace_space] at hmem
        rcases mem_flatMap_spaceEnc hmem with hv | hp
        · have h3' : containsSub ['\x00'] v.data = false := h3
          have : containsSub ['\x00'] v.data = true := (containsSub_singleton _ _).mpr hv
          rw [h3'] at this
          exact Bool.false_ne_true this
        · exact absurd hp (by decide)
      · intro c hc
        rw [contains_eq_false_iff]
        intro hmem
        have hmem' : c ∈ (pyReplace v " " "%20").data := hmem
        rw [pyReplace_space] at hmem'
        rcases mem_flatMap_spaceEnc hmem' with hv | hp
        · have h4c := h4 c hc
          rw [contains_eq_false_iff] at h4c
          exact h4c hv
        · simp [zeroWidthChars] at hc
          rcases hc with rfl | rfl | rfl | rfl <;> exact absurd hp (by decide)
    case isFalse => exact ⟨h1, h2, h3, h4⟩
  · exact ⟨h1, h2, h3, h4⟩

theorem urlStep_empty (field : String) : urlStep field "" = "" := by
  unfold urlStep
  rw [if_neg]
  intro hcontra
  exact absurd hcontra.2 (by decide)

theorem urlStep_idem (field v : String) :
    urlStep field (urlStep field v) = urlStep field v := by
  by_cases hcond : strContains (pyLower field) "url" = true ∧ v.data.contains ' ' = true
  · by_cases hstarts : (strStartsWith v "http://" || strStartsWith v "https://") = true
    · have hv : urlStep field v = pyReplace v " " "%20" := by
        unfold urlStep
        rw [if_pos hcond, if_pos hstarts]
      rw [hv]
      unfold urlStep
      rw [if_neg]
      intro hcontra
      have hnosp : ' ' ∉ (pyReplace v " " "%20").data := by
        rw [pyReplace_space]
        exact space_not_mem_flatMap_spaceEnc _
      have hfalse : (pyReplace v " " "%20").data.contains ' ' = false :=
        (contains_eq_false_iff _ _).mpr hnosp
      rw [hfalse] at hcontra
      exact Bool.false_ne_true hcontra.2
    · have hv : urlStep field v = v := by
        unfold urlStep
        rw [if_pos hcond, if_neg hstarts]
      rw [hv]
      unfold urlStep
      rw [if_pos hcond, if_neg hstarts]
  · have hv : urlStep field v = v := by
      unfold urlStep
      rw [if_neg hcond]
    rw [hv]
    unfold urlStep
    rw [if_neg hcond]

/-- C4 (amended): the per-cell remediation transform applied twice equals it
applied once for every cell value containing no doubled carriage return, no
doubled line feed, no NUL byte and no zero-width characters.  (On arbitrary
values the claim is false: see the counterexample, four consecutive carriage
returns need two passes because a single left-to-right `str.replace` of
a doubled CR collapses them only to two.) -/
theorem c4_cell_transform_idempotent_when_clean (field v : String)
    (h1 : strContains v "\r\r" = false) (h2 : strContains v "\n\n" = false)
    (h3 : strContains v "\x00" = false)
    (h4 : ∀ c ∈ zeroWidthChars, v.data.contains c = false) :
    cellTransform field (cellTransform field v) = cellTransform field v := by
  have hc : cleanStr v := ⟨h1, h2, h3, h4⟩
  rw [cellTransform_clean field hc]
  by_cases hws : v ≠ "" ∧ pyStrip v = ""
  · rw [if_pos hws]
    exact cellTransform_empty field
  · rw [if_neg hws]
    by_cases hv : v = ""
    · rw [hv, pyStrip_empty, urlStep_empty]
      exact cellTransform_empty field
    · have hsne : pyStrip v ≠ "" := fun hps => hws ⟨hv, hps⟩
      have hinf : (pyStrip v).data <:+: v.data := pyStripL_isInfix v.data
      have hcu : cleanStr (pyStrip v) := cleanStr_of_isInfix hinf hc
      have hendh : ∀ c, (pyStrip v).data.head? = some c → isPySpace c = false :=
        fun _ hc' => pyStripL_head? hc'
      have hendl : ∀ c, (pyStrip v).data.getLast? = some c → isPySpace c = false :=
        fun _ hc' => pyStripL_getLast? hc'
      have hcw : cleanStr (urlStep field (pyStrip v)) := urlStep_clean hcu
      rw [cellTransform_clean field hcw]
      have hwne : urlStep field (pyStrip v) ≠ "" := urlStep_ne_empty hsne
      have hwfix : pyStrip (urlStep field (pyStrip v)) = urlStep field (pyStrip v) :=
        urlStep_strip_fixed hendh hendl
      rw [if_neg (fun hcontra => hwne (hwfix ▸ hcontra.2))]
      rw [hwfix]
      exact urlStep_idem field (pyStrip v)

theorem string_ext {s t : String} (h : s.data = t.data) : s = t := by
  cases s; cases t; cases h; rfl

theorem outputPath_single_suffix (stem : String)
    (h : strContains (stem ++ ".cs") ".csv" = false) :
    outputPath (stem ++ ".csv") = stem ++ "_fixed.csv" := by
  apply string_ext
  show pyReplaceL ".csv".data "_fixed.csv".data (stem ++ ".csv").data = _
  rw [String.data_append, String.data_append]
  have h' : containsSub ('.' :: ['c', 's', 'v'])
      (stem.data ++ ('.' :: ['c', 's', 'v']).dropLast) = false := h
  exact pyReplace_append_pattern '.' ['c', 's', 'v'] "_fixed.csv".data stem.data h'

theorem fixed_path_ne (stem : String) : stem ++ "_fixed.csv" ≠ stem ++ ".csv" := by
  intro h
  have := congrArg (fun s => s.data.length) h
  simp only [String.data_append, List.length_append] at this
  have h10 : "_fixed.csv".data.length = 10 := rfl
  have h4 : ".csv".data.length = 4 := rfl
  rw [h10, h4] at this
  omega

theorem foldl_append_isPrefix (headers : List String) (rows : List Row) (init : String) :
    init.data <+: (rows.foldl (fun acc row => acc ++ serializeRow headers row) init).data := by
  induction rows generalizing init with
  | nil => exact List.prefix_refl _
  | cons r rs ih =>
    rw [List.foldl_cons]
    apply List.IsPrefix.trans _ (ih (init ++ serializeRow headers r))
    rw [String.data_append]
    exact List.prefix_append _ _

theorem missingFields_not_mem {req headers : List String} {field h : String}
    (hh : h ∈ headers) (hlow : pyLower h = pyLower field) :
    field ∉ missingFields req headers := by
  intro hmem
  rw [missingFields, List.mem_filter] at hmem
  have hcontains : (headers.map pyLower).contains (pyLower field) = true := by
    rw [List.contains, List.elem_iff]
    exact hlow ▸ List.mem_map_of_mem pyLower hh
  rw [hcontains] at hmem
  simp at hmem

theorem checkHeaderCase_mem {t : String} {req headers : List String} {field h : String}
    (hreq : requiredFieldsOf t = some req) (hf : field ∈ req) (hh : h ∈ headers)
    (hlow : pyLower h = pyLower field) (hne : h ≠ field) :
    ("Header case mismatch: \x27" ++ h ++ "\x27 should be \x27" ++ field ++ "\x27")
      ∈ checkHeaderCase (some t) headers := by
  unfold checkHeaderCase
  simp only [hreq, List.mem_flatMap]
  refine ⟨field, List.mem_append_left _ hf, h, hh, ?_⟩
  rw [if_pos ⟨hlow, hne⟩]
  exact List.mem_cons_self _ _

/-- C3 (amended): detection applies its rules in the fixed source order with
first match winning, so the two-field contacts rule (rule 2) fires before the
`city`/`address_1` locations discriminator (rule 3): any header list that
case-insensitively contains both `first_name` and `last_name` (and no
`configuration_type_name`) is detected as `contacts`, whatever filename and
whatever other discriminators — such as `city` — it also contains. -/
theorem c3_two_field_rule_precedes_city_rule (headers : List String) (fn : String)
    (h1 : (headers.map pyLower).contains "first_name" = true)
    (h2 : (headers.map pyLower).contains "last_name" = true)
    (h3 : (headers.map pyLower).contains "configuration_type_name" = false) :
    detectFileType headers fn = some "contacts" := by
  unfold detectFileType
  simp at h1 h2 h3
  simp [h1, h2, h3]
  exact h3

theorem validateRun_passed_iff (fn : String) (headers : List String) (rows : List Row) (b : Bool) :
    (validateRun fn headers rows b).1 = true ↔ (validateRun fn headers rows b).2.1 = [] := by
  unfold validateRun
  split
  · simp
  · simp [List.isEmpty_iff]

/-! ## Claims -/

/-- C1 (counterexample): a contacts file whose only defect is the
case-mismatched header `Organization` gets NO "missing required fields"
error from `_check_required_fields` — the required-field test is
case-insensitive — so the claim that both a missing-field error and a
case-mismatch error are reported is false; only the case-mismatch error
block (from `_check_header_case`) is produced. -/
theorem c1_counterexample :
    detectFileType ["Organization", "first_name", "last_name"] "import.csv" = some "contacts" ∧
    checkRequiredFields (some "contacts") ["Organization", "first_name", "last_name"] = ([], []) ∧
    checkHeaderCase (some "contacts") ["Organization", "first_name", "last_name"] ≠ [] := by
  decide

/-- C1 (amended): when a required field is absent in exact case but a
case-mismatched variant of it is among the headers, the field is NOT in the
missing-fields list of `_check_required_fields` (its test is
case-insensitive), while `_check_header_case` does emit the
"Header case mismatch" error for that header; the two errors are mutually
exclusive for any one field. -/
theorem c1_case_mismatch_without_missing_error (t : String) (req headers : List String)
    (field hdr : String) (hreq : requiredFieldsOf t = some req) (hf : field ∈ req)
    (hh : hdr ∈ headers) (hlow : pyLower hdr = pyLower field) (hne : hdr ≠ field) :
    field ∉ missingFields req headers ∧
    ("Header case mismatch: \x27" ++ hdr ++ "\x27 should be \x27" ++ field ++ "\x27")
      ∈ checkHeaderCase (some t) headers :=
  ⟨missingFields_not_mem hh hlow, checkHeaderCase_mem hreq hf hh hlow hne⟩

/-- C1 witness: the amended statement at the concrete contacts instance. -/
theorem c1_witness :
    requiredFieldsOf "contacts" = some ["organization", "first_name", "last_name"] ∧
    "organization" ∈ ["organization", "first_name", "last_name"] ∧
    "Organization" ∈ (["Organization", "first_name", "last_name"] : List String) ∧
    pyLower "Organization" = pyLower "organization" ∧
    "Organization" ≠ "organization" ∧
    ("organization" ∉ missingFields ["organization", "first_name", "last_name"]
        ["Organization", "first_name", "last_name"] ∧
     ("Header case mismatch: \x27" ++ "Organization" ++ "\x27 should be \x27" ++
        "organization" ++ "\x27")
       ∈ checkHeaderCase (some "contacts") ["Organization", "first_name", "last_name"]) :=
  ⟨by decide, by decide, by decide, by decide, by decide,
   c1_case_mismatch_without_missing_error "contacts" ["organization", "first_name", "last_name"]
     ["Organization", "first_name", "last_name"] "organization" "Organization"
     (by decide) (by decide) (by decide) (by decide) (by decide)⟩

/-- C2: with headers matching no detection rule, detection returns `none`
and the required-fields check emits the single advisory block (one
top-level warning, four hint lines) and no error; the type-dependent
checks produce nothing for an unknown type.  However the claim that all
type-agnostic checks still run is false at run time: `validate` reaches
the call to the undefined `_check_incomplete_rows` and records the
`AttributeError` as two errors, skipping every later check — here the
whitespace-only cell of the input is provably flagged by
`_check_spaces_in_empty_cells` yet absent from the run-time report. -/
theorem c2_unknown_type_runtime :
    detectFileType ["foo"] "data.csv" = none ∧
    validateRun "data.csv" ["foo"] [[("foo", some " ")]] false =
      (false, attributeErrorMessages, unknownTypeWarnings ["foo"]) ∧
    ((unknownTypeWarnings ["foo"]).filter (fun m => !strStartsWith m "  → ")).length = 1 ∧
    checkSpacesInEmptyCells [[("foo", some " ")]] ≠ [] ∧
    (∀ rows headers, checkEmptyRequiredFields none rows headers = [] ∧
      checkRecommendedFields none rows headers = [] ∧ checkHeaderCase none headers = [] ∧
      checkPasswordCategories none rows headers = []) :=
  ⟨by decide, by decide, by decide, by decide,
   fun rows headers => ⟨rfl, rfl, rfl, by simp [checkPasswordCategories]⟩⟩

/-- C3 (counterexample): a header list carrying both the locations
discriminator `city` and the contacts two-field combination
`first_name`/`last_name` is detected as `contacts`, not as the
discriminator type `locations` the claim requires. -/
theorem c3_counterexample :
    detectFileType ["city", "first_name", "last_name"] "import.csv" = some "contacts" ∧
    detectFileType ["city", "first_name", "last_name"] "import.csv" ≠ some "locations" := by
  decide

/-- C3 witness: the amended ordering statement at the concrete mixed
header list. -/
theorem c3_witness :
    (["city", "first_name", "last_name"].map pyLower).contains "first_name" = true ∧
    (["city", "first_name", "last_name"].map pyLower).contains "last_name" = true ∧
    (["city", "first_name", "last_name"].map pyLower).contains "configuration_type_name" = false ∧
    detectFileType ["city", "first_name", "last_name"] "import.csv" = some "contacts" :=
  ⟨by decide, by decide, by decide,
   c3_two_field_rule_precedes_city_rule ["city", "first_name", "last_name"] "import.csv"
     (by decide) (by decide) (by decide)⟩

/-- C4 (counterexample): the cell transform is not idempotent — four
consecutive carriage returns become two after one application and one
after a second, so remediating an already-remediated value changes it. -/
theorem c4_counterexample :
    cellTransform "notes" "a\r\r\r\rb" = "a\r\rb" ∧
    cellTransform "notes" (cellTransform "notes" "a\r\r\r\rb") = "a\rb" ∧
    cellTransform "notes" (cellTransform "notes" "a\r\r\r\rb") ≠
      cellTransform "notes" "a\r\r\r\rb" := by
  decide

/-- C4 witness: idempotence at the concrete clean URL value. -/
theorem c4_witness :
    strContains "http://x y" "\r\r" = false ∧
    strContains "http://x y" "\n\n" = false ∧
    strContains "http://x y" "\x00" = false ∧
    (∀ c ∈ zeroWidthChars, "http://x y".data.contains c = false) ∧
    cellTransform "url" (cellTransform "url" "http://x y") =
      cellTransform "url" "http://x y" :=
  ⟨by decide, by decide, by decide, by decide,
   c4_cell_transform_idempotent_when_clean "url" "http://x y"
     (by decide) (by decide) (by decide) (by decide)⟩

/-- C5 (counterexample): `get_csv_files` accepts `file.CSV` (its suffix
lowercases to `.csv`), but the output path of `_apply_fixes` —
`csv_path.replace('.csv', '_fixed.csv')`, a case-sensitive replacement —
is then the input path itself, so remediation overwrites the source file
instead of writing `<stem>_fixed.csv`. -/
theorem c5_counterexample :
    acceptsCsvPath "file.CSV" = true ∧ outputPath "file.CSV" = "file.CSV" := by
  decide

/-- C5 (amended): for a path ending in lowercase `.csv` whose stem does not
contain another occurrence of `.csv` (the replacement substitutes every
occurrence, so e.g. `a.csv.csv` becomes `a_fixed.csv_fixed.csv`), the
output path is `<stem>_fixed.csv` and differs from the source path. -/
theorem c5_output_path_lowercase_suffix (stem : String)
    (h : strContains (stem ++ ".cs") ".csv" = false) :
    outputPath (stem ++ ".csv") = stem ++ "_fixed.csv" ∧
    outputPath (stem ++ ".csv") ≠ stem ++ ".csv" := by
  have h1 := outputPath_single_suffix stem h
  exact ⟨h1, by rw [h1]; exact fixed_path_ne stem⟩

/-- C5 witness: the amended path derivation at a concrete clean stem. -/
theorem c5_witness :
    strContains ("report" ++ ".cs") ".csv" = false ∧
    (outputPath ("report" ++ ".csv") = "report" ++ "_fixed.csv" ∧
     outputPath ("report" ++ ".csv") ≠ "report" ++ ".csv") :=
  ⟨by decide, c5_output_path_lowercase_suffix "report" (by decide)⟩

/-- C6: `_check_spaces_in_empty_cells` does flag a whitespace-only cell as
an error, and the cell loop of `_apply_fixes` does turn such a cell into
the true empty string while never dropping a row — but at run time the
check is unreachable: `validate` aborts on the undefined
`_check_incomplete_rows` before line 98, so the error never appears in
the report of this file. -/
theorem c6_whitespace_cell_flagged_but_unreachable :
    checkSpacesInEmptyCells [[("organization", some "Acme Corp"), ("first_name", some " "),
        ("last_name", some "Smith")]] =
      ["Row 2, Field \x27first_name\x27: Contains only whitespace (spaces/tabs)",
       "  → IT Glue requires empty cells to be COMPLETELY EMPTY",
       "  → Delete the spaces/tabs from this cell"] ∧
    remediateRows [] [[("organization", some "Acme Corp"), ("first_name", some " "),
        ("last_name", some "Smith")]] =
      [[("organization", some "Acme Corp"), ("first_name", some ""),
        ("last_name", some "Smith")]] ∧
    (∀ fd rows, (remediateRows fd rows).length = rows.length) ∧
    "Row 2, Field \x27first_name\x27: Contains only whitespace (spaces/tabs)" ∉
      (validateRun "contacts.csv" ["organization", "first_name", "last_name"]
        [[("organization", some "Acme Corp"), ("first_name", some " "),
          ("last_name", some "Smith")]] false).2.1 :=
  ⟨by decide, by decide, fun fd rows => by simp [remediateRows], by decide⟩

/-- C7: `_check_row_count` itself reports 6001 data rows as the
batch-splitting warning block with no error, and the verdict of
`validate` is by construction `errors == []` (warnings never block) — but
at run time the check never executes: the undefined
`_check_incomplete_rows` aborts the suite first, every file gets the two
`AttributeError` error strings, no batch warning is ever emitted and
`passed` is false for every parsed file. -/
theorem c7_row_count_warning_and_verdict (rows : List Row) (h : rows.length = 6001) :
    (checkRowCount rows).1 = [] ∧
    "CSV has 6001 rows - this is a large import" ∈ (checkRowCount rows).2 ∧
    (∀ fn headers rows' b,
      (validateRun fn headers rows' b).1 = true ↔ (validateRun fn headers rows' b).2.1 = []) ∧
    validateRun "contacts.csv" ["organization", "first_name", "last_name"] rows false =
      (false, attributeErrorMessages, []) := by
  refine ⟨?_, ?_, validateRun_passed_iff, rfl⟩
  · unfold checkRowCount
    rw [h]
    norm_num
  · unfold checkRowCount
    rw [h]
    norm_num
    left
    decide

/-- C7 witness: the statement at a concrete 6001-row table. -/
theorem c7_witness :
    (List.replicate 6001 ([] : Row)).length = 6001 ∧
    ((checkRowCount (List.replicate 6001 ([] : Row))).1 = [] ∧
     "CSV has 6001 rows - this is a large import" ∈
       (checkRowCount (List.replicate 6001 ([] : Row))).2 ∧
     (∀ fn headers rows' b,
       (validateRun fn headers rows' b).1 = true ↔ (validateRun fn headers rows' b).2.1 = []) ∧
     validateRun "contacts.csv" ["organization", "first_name", "last_name"]
         (List.replicate 6001 ([] : Row)) false = (false, attributeErrorMessages, [])) :=
  ⟨List.length_replicate 6001 ([] : Row),
   c7_row_count_warning_and_verdict (List.replicate 6001 ([] : Row))
     (List.length_replicate 6001 ([] : Row))⟩

/-- C8: the three detection examples of the specification hold on
`_detect_file_type`: contacts headers map to `contacts`, location headers
to `locations`, and a bare `name` header (no organization field) to
`organizations`. -/
theorem c8_detection_examples :
    detectFileType ["organization", "first_name", "last_name"] "import.csv" = some "contacts" ∧
    detectFileType ["name", "address_1", "city"] "import.csv" = some "locations" ∧
    detectFileType ["name"] "import.csv" = some "organizations" := by
  decide

/-- C9: the serialized output always begins with the raw comma-join of
the header names followed by a newline — no quoting or escaping is ever
applied to a header — while a data cell containing a comma is wrapped in
double quotes; concretely, the header name `a,b` is written unescaped
into the header line of the output while the data value `x,y` is
quoted. -/
theorem c9_header_line_unquoted :
    (∀ headers rows, (pyJoin "," headers ++ "\n").data <+: (serializeOutput headers rows).data) ∧
    serializeCell "x,y" = "\"x,y\"" ∧
    serializeOutput ["a,b", "c"] [[("a,b", some "x,y"), ("c", some "z")]] =
      "a,b,c\n\"x,y\",z\n" :=
  ⟨fun headers rows => foldl_append_isPrefix headers rows _, by decide, by decide⟩

/-- C10: `_check_row_count` does produce the error
"CSV has headers but no data rows" for a headers-only table, but at run
time the check is unreachable: the undefined `_check_incomplete_rows`
aborts `validate` first, so the run-time error list for a headers-only
file holds only the two `AttributeError` strings (the file still fails,
but not with this message). -/
theorem c10_no_data_rows_error_unreachable :
    (checkRowCount ([] : List Row)).1 =
      ["CSV has headers but no data rows", "  → Add at least one data row to import"] ∧
    validateRun "x.csv" ["name"] [] false = (false, attributeErrorMessages, []) ∧
    "CSV has headers but no data rows" ∉ (validateRun "x.csv" ["name"] [] false).2.1 := by
  decide
